import Mathlib

/-!
Shallow embedding of the work-distribution engine in `src/latest_firebase.py`
(tenant reconciliation, paginated tenant listing, per-tenant user creation
with password reset, and the thread-pool driven main routine), together with
theorems settling the specification claims about it.

External effects (HTTP responses of the identity service, the Supabase RPC,
the CSPRNG) are modelled as explicit inputs: each call site receives the
outcome the external collaborator would have produced, indexed by call
number, so the control flow of the Python code can be reproduced exactly.
-/

namespace Firebase

/-- `RETRY_DELAY = 2`: fixed backoff, in seconds, between Supabase fetch retries. -/
def RETRY_DELAY : Nat := 2

/-- `PAGE_SIZE = 100`: page size requested from the tenant listing API. -/
def PAGE_SIZE : Nat := 100

/-- Errors raised by external calls are modelled by their message. -/
abbrev Err := String

/-- A tenant as returned by the identity service: a dict whose `name` field is
the full resource name (`projects/<p>/tenants/<id>`). -/
structure Tenant where
  name : String
deriving DecidableEq, Repr

/-- Python's `str.split("/")` on the character list: adjacent separators
yield empty components, and the empty string splits to one empty component. -/
def splitOnSlash : List Char → List (List Char)
  | [] => [[]]
  | c :: rest =>
    match splitOnSlash rest with
    | [] => [[]]
    | s :: ss => if c = '/' then [] :: s :: ss else (c :: s) :: ss

/-- `tenant["name"].split("/")[-1]`: the tenant identifier, i.e. the last
component of the resource name. -/
def tenant_id_of (t : Tenant) : String :=
  String.mk ((splitOnSlash t.name.toList).getLastD [])

/-! ## Paginated tenant listing (`get_project_tenants`, lines 102-115)

The identity service is modelled as the sequence of pages it would serve:
page `i` carries `nextPageToken = i+1` exactly when a further page exists. -/

/-- The tenant listing endpoint, as the sequence of pages it serves. -/
structure TenantServer where
  pages : List (List Tenant)
deriving Repr

/-- One GET of the tenant list: returns the tenants of the requested page and
the `nextPageToken` (present iff a later page exists). -/
def fetchTenantsPage (s : TenantServer) (tok : Nat) : List Tenant × Option Nat :=
  (s.pages.getD tok [], if tok + 1 < s.pages.length then some (tok + 1) else none)

/-- The `while True` pagination loop of `get_project_tenants`: accumulate the
page's tenants, follow `nextPageToken` when present, stop when absent.
`fuel` bounds the iterations (the Python loop terminates exactly when the
server eventually omits the token, which the page-list model guarantees). -/
def listTenantsLoop (s : TenantServer) : Nat → Nat → List Tenant
  | 0, _ => []
  | fuel + 1, tok =>
    let step := fetchTenantsPage s tok
    match step.2 with
    | none => step.1
    | some tok2 => step.1 ++ listTenantsLoop s fuel tok2

/-- `get_project_tenants()`: drain all pages starting from the first. -/
def get_project_tenants (s : TenantServer) : List Tenant :=
  listTenantsLoop s s.pages.length 0

lemma listTenantsLoop_eq_drop_join (s : TenantServer) :
    ∀ fuel tok, tok < s.pages.length → s.pages.length ≤ tok + fuel →
      listTenantsLoop s fuel tok = (s.pages.drop tok).flatten := by
  intro fuel
  induction fuel with
  | zero =>
    intro tok hlt hle
    omega
  | succ n ih =>
    intro tok hlt hle
    have hget : s.pages.getD tok [] = s.pages[tok] := List.getD_eq_getElem s.pages [] hlt
    by_cases hnext : tok + 1 < s.pages.length
    · have hrec := ih (tok + 1) hnext (by omega)
      simp only [listTenantsLoop, fetchTenantsPage, hnext, if_pos, hget, hrec]
      conv_rhs => rw [List.drop_eq_getElem_cons hlt, List.flatten_cons]
    · have htok : tok + 1 = s.pages.length := by omega
      simp only [listTenantsLoop, fetchTenantsPage, hnext, if_neg, hget]
      rw [List.drop_eq_getElem_cons hlt]
      have : s.pages.drop (tok + 1) = [] := List.drop_eq_nil_of_le (by omega)
      simp [this]

/-- C3: the pagination loop returns the concatenation of all pages. -/
theorem get_project_tenants_eq_join (s : TenantServer) :
    get_project_tenants s = s.pages.flatten := by
  unfold get_project_tenants
  rcases Nat.eq_zero_or_pos s.pages.length with h0 | hpos
  · have hnil : s.pages = [] := List.length_eq_zero.mp h0
    simp [hnil, listTenantsLoop]
  · have := listTenantsLoop_eq_drop_join s s.pages.length 0 hpos (by omega)
    simpa using this

/-! ## Tenant creation and the reconciliation step of `main` (lines 117-124, 183-198)

`create_tenant` POSTs and extracts the id from the returned resource name; an
HTTP/JSON failure raises. In `main`, `to_create = max(0, target - len(tenants))`
tenants are created in a plain `for` loop with no `try/except`: a raising
creation call aborts the loop (and `main`). The directory grows by one tenant
per successful creation; the final re-listing returns the grown directory. -/

/-- `create_tenant`: on a successful response, the id is the last component of
the returned `name`; a failed call raises (modelled as `Except.error`). -/
def create_tenant (resp : Except Err String) : Except Err String :=
  match resp with
  | Except.error e => Except.error e
  | Except.ok fullName =>
    Except.ok (String.mk ((splitOnSlash fullName.toList).getLastD []))

/-- The creation `for` loop of `main`: attempt `k` creations starting at call
index `i` against per-call server outcomes `resp`, growing the directory
`dir` on each success. Returns (number of creation calls issued, directory
after the loop, the raised error if the loop aborted). A failing call counts
as issued, aborts immediately, and leaves the directory as it was. -/
def creationLoop (resp : Nat → Except Err Tenant) : Nat → Nat → List Tenant →
    Nat × List Tenant × Option Err
  | _, 0, dir => (0, dir, none)
  | i, k + 1, dir =>
    match resp i with
    | Except.error e => (1, dir, some e)
    | Except.ok t =>
      let r := creationLoop resp (i + 1) k (dir ++ [t])
      (r.1 + 1, r.2)

/-- `to_create = max(0, target - len(tenants))` with Python integers. -/
def to_create (target : Int) (existingCount : Nat) : Nat :=
  (max 0 (target - (existingCount : Int))).toNat

/-- The reconciliation step of `main` (spec name `ensure_partition_count`):
list the directory `dir`, create the deficit, and re-list. Returns (creation
calls issued, the re-listed directory, the raised error if aborted). -/
def ensure_partition_count (dir : List Tenant) (target : Int)
    (resp : Nat → Except Err Tenant) : Nat × List Tenant × Option Err :=
  creationLoop resp 0 (to_create target dir.length) dir

lemma creationLoop_all_ok (resp : Nat → Except Err Tenant)
    (hok : ∀ j, ∃ t, resp j = Except.ok t) :
    ∀ k i dir, (creationLoop resp i k dir).1 = k ∧
      (creationLoop resp i k dir).2.1.length = dir.length + k ∧
      (creationLoop resp i k dir).2.2 = none := by
  intro k
  induction k with
  | zero => intro i dir; simp [creationLoop]
  | succ n ih =>
    intro i dir
    obtain ⟨t, ht⟩ := hok i
    have hrec := ih (i + 1) (dir ++ [t])
    simp only [creationLoop, ht]
    refine ⟨by omega, ?_, hrec.2.2⟩
    have := hrec.2.1
    simp only [List.length_append, List.length_cons, List.length_nil] at this
    omega

/-- C1: with every creation call succeeding, the reconciliation step issues
exactly `max(0, target - k)` creation calls on a directory of `k` tenants;
when `k < target` that is `target - k`, and when `k ≥ target` it issues no
calls at all and the directory is unchanged. -/
theorem ensure_partition_count_creates_deficit (dir : List Tenant) (target : Int)
    (resp : Nat → Except Err Tenant) (hok : ∀ j, ∃ t, resp j = Except.ok t) :
    (ensure_partition_count dir target resp).1 = to_create target dir.length ∧
    ((dir.length : Int) < target →
      (ensure_partition_count dir target resp).1 = (target - dir.length).toNat) ∧
    (target ≤ (dir.length : Int) →
      (ensure_partition_count dir target resp).1 = 0 ∧
      (ensure_partition_count dir target resp).2.1 = dir) := by
  have hmain := creationLoop_all_ok resp hok (to_create target dir.length) 0 dir
  simp only [ensure_partition_count]
  refine ⟨hmain.1, ?_, ?_⟩
  · intro hlt
    rw [hmain.1]
    unfold to_create
    congr 1
    omega
  · intro hge
    have hz : to_create target dir.length = 0 := by
      unfold to_create
      omega
    rw [hz]
    simp [creationLoop]

/-- Witness for C1: a directory of 1 tenant and target 3 gets exactly 2
creation calls, and a directory of 1 tenant with target 0 gets none. -/
theorem ensure_partition_count_creates_deficit_witness :
    (ensure_partition_count [⟨"projects/p/tenants/a"⟩] 3
        (fun j => Except.ok ⟨"projects/p/tenants/n" ++ toString j⟩)).1 = 2 ∧
    (ensure_partition_count [⟨"projects/p/tenants/a"⟩] 0
        (fun j => Except.ok ⟨"projects/p/tenants/n" ++ toString j⟩)).2.1 =
      [⟨"projects/p/tenants/a"⟩] := by
  constructor
  · have h := ensure_partition_count_creates_deficit [⟨"projects/p/tenants/a"⟩] 3
      (fun j => Except.ok ⟨"projects/p/tenants/n" ++ toString j⟩)
      (fun j => ⟨_, rfl⟩)
    have h2 := h.2.1 (by decide)
    simpa using h2
  · have h := ensure_partition_count_creates_deficit [⟨"projects/p/tenants/a"⟩] 0
      (fun j => Except.ok ⟨"projects/p/tenants/n" ++ toString j⟩)
      (fun j => ⟨_, rfl⟩)
    exact (h.2.2 (by decide)).2

/-- C4: if a first reconciliation run with target `N` fully succeeded, a
second run with the same target on the resulting directory issues zero
creation calls. -/
theorem ensure_partition_count_idempotent (dir : List Tenant) (target : Int)
    (resp resp2 : Nat → Except Err Tenant)
    (hok : ∀ j, ∃ t, resp j = Except.ok t) :
    (ensure_partition_count (ensure_partition_count dir target resp).2.1 target
      resp2).1 = 0 := by
  have h1 := creationLoop_all_ok resp hok (to_create target dir.length) 0 dir
  have hlen : (ensure_partition_count dir target resp).2.1.length =
      dir.length + to_create target dir.length := h1.2.1
  have hz : to_create target (ensure_partition_count dir target resp).2.1.length = 0 := by
    rw [hlen]
    unfold to_create
    omega
  simp only [ensure_partition_count] at hz ⊢
  rw [hz]
  simp [creationLoop]

/-- Witness for C4: starting from an empty directory with target 2 and both
creations succeeding, a second run issues zero creation calls. -/
theorem ensure_partition_count_idempotent_witness :
    (ensure_partition_count
      (ensure_partition_count [] 2 (fun j => Except.ok ⟨"projects/p/tenants/n" ++ toString j⟩)).2.1
      2 (fun j => Except.ok ⟨"projects/p/tenants/m" ++ toString j⟩)).1 = 0 :=
  ensure_partition_count_idempotent [] 2
    (fun j => Except.ok ⟨"projects/p/tenants/n" ++ toString j⟩)
    (fun j => Except.ok ⟨"projects/p/tenants/m" ++ toString j⟩)
    (fun _ => ⟨_, rfl⟩)

/-! ## Failure of a creation call (C6)

The creation loop in `main` has no `try/except` around `create_tenant`, so a
raising call propagates and aborts the loop (and `main`). -/

/-- A server on which every tenant-creation call raises. -/
def alwaysFailResp : Nat → Except Err Tenant := fun _ => Except.error "boom"

/-- C6 counterexample: on an empty directory with target 2 and a failing
first creation call, the reconciliation issues only 1 call — the remaining
creation is NOT attempted — and the failure propagates as a raised error
rather than being logged, skipped and surfaced via the returned count. -/
theorem create_failure_aborts_counterexample :
    (ensure_partition_count [] 2 alwaysFailResp).1 = 1 ∧
    (ensure_partition_count [] 2 alwaysFailResp).2.2 = some "boom" ∧
    ¬ ((ensure_partition_count [] 2 alwaysFailResp).1 = 2 ∧
       (ensure_partition_count [] 2 alwaysFailResp).2.2 = none) := by
  refine ⟨rfl, rfl, ?_⟩
  intro h
  have h1 : (ensure_partition_count [] 2 alwaysFailResp).1 = 1 := rfl
  have h2 := h.1
  omega

/-- C6 amended: when creation call `j` is the first to fail (all earlier
calls succeed, `j < deficit`), the reconciliation issues exactly `j + 1`
calls — later creations are not attempted — and the error propagates out of
the loop. -/
theorem create_failure_aborts (dir : List Tenant) (target : Int)
    (resp : Nat → Except Err Tenant) (j : Nat) (e : Err)
    (hj : j < to_create target dir.length)
    (hok : ∀ d, d < j → ∃ t, resp d = Except.ok t)
    (herr : resp j = Except.error e) :
    (ensure_partition_count dir target resp).1 = j + 1 ∧
    (ensure_partition_count dir target resp).2.2 = some e := by
  suffices h : ∀ j k i dir0, j < k → (∀ d, d < j → ∃ t, resp (i + d) = Except.ok t) →
      resp (i + j) = Except.error e →
      (creationLoop resp i k dir0).1 = j + 1 ∧
      (creationLoop resp i k dir0).2.2 = some e by
    have := h j (to_create target dir.length) 0 dir hj
      (by intro d hd; simpa using hok d hd) (by simpa using herr)
    exact this
  intro j
  induction j with
  | zero =>
    intro k i dir0 hjk hpre herr0
    obtain ⟨k0, rfl⟩ := Nat.exists_eq_succ_of_ne_zero (by omega : k ≠ 0)
    simp only [Nat.add_zero] at herr0
    simp [creationLoop, herr0]
  | succ n ih =>
    intro k i dir0 hjk hpre herr0
    obtain ⟨k0, rfl⟩ := Nat.exists_eq_succ_of_ne_zero (by omega : k ≠ 0)
    obtain ⟨t, ht⟩ := hpre 0 (by omega)
    simp only [Nat.add_zero] at ht
    have hrec := ih k0 (i + 1) (dir0 ++ [t]) (by omega)
      (by
        intro d hd
        have := hpre (d + 1) (by omega)
        simpa [Nat.add_assoc, Nat.add_comm 1 d] using this)
      (by
        have : i + 1 + n = i + (n + 1) := by omega
        rw [this]
        exact herr0)
    simp only [creationLoop, ht]
    exact ⟨by omega, hrec.2⟩

/-- Witness for C6 amended: target 3 on an empty directory, first call
succeeds and the second raises: exactly 2 calls are issued (the third is
never attempted) and the error propagates. -/
theorem create_failure_aborts_witness :
    (ensure_partition_count [] 3
        (fun i => if i = 0 then Except.ok ⟨"projects/p/tenants/n0"⟩
                  else Except.error "quota")).1 = 2 ∧
    (ensure_partition_count [] 3
        (fun i => if i = 0 then Except.ok ⟨"projects/p/tenants/n0"⟩
                  else Except.error "quota")).2.2 = some "quota" := by
  have h := create_failure_aborts [] 3
    (fun i => if i = 0 then Except.ok ⟨"projects/p/tenants/n0"⟩
              else Except.error "quota") 1 "quota"
    (by decide)
    (by
      intro d hd
      have : d = 0 := by omega
      subst this
      exact ⟨⟨"projects/p/tenants/n0"⟩, rfl⟩)
    rfl
  exact h

/-! ## Display names of created tenants (`random_alpha`, lines 62-63, and
the creation loop at line 192)

`random_alpha(length=7)` joins `length` draws of `secrets.choice(
string.ascii_letters)`; `main` passes `random_alpha()` — a fresh random
7-letter string — as each new tenant's display name. The CSPRNG is modelled
as the function `draws` giving, for each creation call and each position,
the letter drawn. -/

/-- `string.ascii_letters`. -/
def ascii_letters : List Char :=
  "abcdefghijklmnopqrstuvwxyzABCDEFGHIJKLMNOPQRSTUVWXYZ".toList

/-- `random_alpha(length)`: the string of the `length` characters drawn. -/
def random_alpha (choice : Nat → Char) (length : Nat) : String :=
  String.mk ((List.range length).map choice)

/-- The display name `main` passes to `create_tenant` for its `i`-th creation
call: `random_alpha()` with that call's fresh draws. It takes no account of
the existing tenant count or any running index. -/
def display_name_for_call (draws : Nat → Nat → Char) (i : Nat) : String :=
  random_alpha (draws i) 7

/-- C8 counterexample: the display name is a random 7-letter string, not a
fixed prefix plus an increasing index: under a CSPRNG behaviour that draws
the letter a every time, the 0th and 1st creation calls of the same run both
get the display name "aaaaaaa" — names are not collision-free. -/
theorem display_name_collision_counterexample :
    display_name_for_call (fun _ _ => 'a') 0 =
      display_name_for_call (fun _ _ => 'a') 1 ∧
    display_name_for_call (fun _ _ => 'a') 0 = "aaaaaaa" := by
  constructor <;> rfl

/-- C8 amended: each created tenant's display name is `random_alpha()`: a
fresh 7-character string whose characters are the call's CSPRNG draws from
`ascii_letters`; it does not depend on the existing tenant count, and
distinctness of names across calls or runs is not guaranteed. -/
theorem display_name_is_random_alpha (draws : Nat → Nat → Char) (i : Nat)
    (hletters : ∀ p, draws i p ∈ ascii_letters) :
    (display_name_for_call draws i).length = 7 ∧
    (display_name_for_call draws i).toList = (List.range 7).map (draws i) ∧
    ∀ c ∈ (display_name_for_call draws i).toList, c ∈ ascii_letters := by
  refine ⟨rfl, rfl, ?_⟩
  intro c hc
  have hc2 : c ∈ (List.range 7).map (draws i) := hc
  obtain ⟨p, _, rfl⟩ := List.mem_map.mp hc2
  exact hletters p

/-- Witness for C8 amended: with draws cycling through abcdefg, creation
call 0 gets display name "abcdefg" of length 7, all letters. -/
theorem display_name_is_random_alpha_witness :
    (display_name_for_call (fun _ p => ascii_letters.getD p 'a') 0).length = 7 ∧
    (∀ c ∈ (display_name_for_call (fun _ p => ascii_letters.getD p 'a') 0).toList,
      c ∈ ascii_letters) := by
  have h := display_name_is_random_alpha (fun _ p => ascii_letters.getD p 'a') 0
    (by
      intro p
      show ascii_letters.getD p 'a' ∈ ascii_letters
      by_cases hp : p < ascii_letters.length
      · rw [List.getD_eq_getElem _ _ hp]
        exact List.getElem_mem hp
      · rw [List.getD_eq_default _ _ (by omega)]
        decide)
  exact ⟨h.1, h.2.2⟩

/-! ## `get_email` (lines 73-84)

A `while True` loop around the Supabase RPC: a raising call is printed and
retried after `RETRY_DELAY` seconds; the loop only ever exits by returning a
successfully fetched email. The RPC's behaviour is the function `outc` from
attempt index to outcome; `fuel` bounds the number of attempts modelled (the
Python loop runs until the first success). The result carries the index of
the successful attempt, which is also the number of failed attempts (and so
of backoff sleeps) that preceded it. -/

/-- The retry loop of `get_email`: try attempts `i, i+1, ...` until a success
or until `fuel` attempts have been made. -/
def getEmailLoop (outc : Nat → Except Err String) : Nat → Nat → Option (Nat × String)
  | _, 0 => none
  | i, fuel + 1 =>
    match outc i with
    | Except.ok e => some (i, e)
    | Except.error _ => getEmailLoop outc (i + 1) fuel

/-- `get_email()`, given the RPC behaviour `outc`, observed for up to `fuel`
attempts: `some (n, e)` means the loop returned email `e` on attempt `n`
after `n` failures, each followed by a `RETRY_DELAY` backoff sleep. -/
def get_email (outc : Nat → Except Err String) (fuel : Nat) : Option (Nat × String) :=
  getEmailLoop outc 0 fuel

/-- Total backoff slept before the successful attempt `n`: one fixed
`RETRY_DELAY` per failed attempt. -/
def backoff_before (n : Nat) : Nat := n * RETRY_DELAY

lemma getEmailLoop_sound (outc : Nat → Except Err String) :
    ∀ fuel i n e, getEmailLoop outc i fuel = some (n, e) →
      i ≤ n ∧ outc n = Except.ok e ∧ ∀ m, i ≤ m → m < n → ∃ err, outc m = Except.error err := by
  intro fuel
  induction fuel with
  | zero => intro i n e h; simp [getEmailLoop] at h
  | succ f ih =>
    intro i n e h
    cases hout : outc i with
    | ok v =>
      simp only [getEmailLoop, hout] at h
      have h2 := Option.some.inj h
      rw [Prod.mk.injEq] at h2
      obtain ⟨rfl, rfl⟩ := h2
      exact ⟨Nat.le_refl _, hout, fun m h1 h2 => absurd (Nat.lt_of_le_of_lt h1 h2) (Nat.lt_irrefl _)⟩
    | error err =>
      simp only [getEmailLoop, hout] at h
      obtain ⟨hle, hok, hfail⟩ := ih (i + 1) n e h
      refine ⟨by omega, hok, ?_⟩
      intro m h1 h2
      rcases Nat.eq_or_lt_of_le h1 with rfl | hlt
      · exact ⟨err, hout⟩
      · exact hfail m hlt h2

lemma getEmailLoop_complete (outc : Nat → Except Err String) (e : String) :
    ∀ j i, outc (i + j) = Except.ok e → (∀ m, i ≤ m → m < i + j → ∃ err, outc m = Except.error err) →
      ∀ fuel, j < fuel → getEmailLoop outc i fuel = some (i + j, e) := by
  intro j
  induction j with
  | zero =>
    intro i hok _ fuel hfuel
    obtain ⟨f, rfl⟩ := Nat.exists_eq_succ_of_ne_zero (by omega : fuel ≠ 0)
    simp only [Nat.add_zero] at hok
    simp [getEmailLoop, hok]
  | succ n ih =>
    intro i hok hfail fuel hfuel
    obtain ⟨f, rfl⟩ := Nat.exists_eq_succ_of_ne_zero (by omega : fuel ≠ 0)
    obtain ⟨err, herr⟩ := hfail i (Nat.le_refl _) (by omega)
    have hrec := ih (i + 1)
      (by rw [show i + 1 + n = i + (n + 1) by omega]; exact hok)
      (by intro m h1 h2; exact hfail m (by omega) (by omega))
      f (by omega)
    simp only [getEmailLoop, herr]
    rw [hrec, show i + 1 + n = i + (n + 1) by omega]

/-- C7: the `get_email` retry loop never lets a fetch error escape and only
ever returns a successfully fetched email: (soundness) whatever it returns
was the outcome of a successful attempt, every earlier attempt failed, and
the loop slept a fixed `RETRY_DELAY` backoff after each failure; and
(progress) if attempt `j` is the first success, then — observing enough
attempts — the loop returns exactly that email, the errors before it having
been retried, not propagated. -/
theorem get_email_retries_until_success (outc : Nat → Except Err String)
    (j : Nat) (e : String)
    (hok : outc j = Except.ok e)
    (hfail : ∀ m, m < j → ∃ err, outc m = Except.error err) :
    (∀ fuel n v, get_email outc fuel = some (n, v) →
        outc n = Except.ok v ∧ (∀ m, m < n → ∃ err, outc m = Except.error err) ∧
        backoff_before n = n * RETRY_DELAY) ∧
    get_email outc (j + 1) = some (j, e) := by
  constructor
  · intro fuel n v h
    obtain ⟨_, hsound, hpre⟩ := getEmailLoop_sound outc fuel 0 n v h
    exact ⟨hsound, fun m hm => hpre m (Nat.zero_le _) hm, rfl⟩
  · have := getEmailLoop_complete outc e j 0 (by simpa using hok)
      (by intro m h1 h2; exact hfail m (by omega)) (j + 1) (by omega)
    simpa using this

/-- Witness for C7: the RPC fails twice then succeeds on attempt 2: the loop
returns that email after exactly 2 retries. -/
theorem get_email_retries_until_success_witness :
    get_email (fun i => if i < 2 then Except.error "down" else Except.ok "a@x") 3 =
      some (2, "a@x") := by
  have h := get_email_retries_until_success
    (fun i => if i < 2 then Except.error "down" else Except.ok "a@x") 2 "a@x"
    rfl
    (by intro m hm; exact ⟨"down", by simp [hm]⟩)
  exact h.2

/-! ## `add_user_and_send_reset` (lines 144-165) and `send_password_reset`

`create_user` sits alone inside `try/except`: a failure (including "user
already exists") is printed as a warning and control falls through to
`send_password_reset(email, tenant_id)`, which is always executed. The
observable steps are modelled as an event trace. -/

/-- Observable steps of the per-item effect. -/
inductive UEvent where
  | userCreated (email : String)
  | warnCreateFailed (email : String) (err : Err)
  | resetRequested (email : String) (tenantId : String)
  | failResetLogged (email : String)
deriving DecidableEq, Repr

/-- `send_password_reset(email, tenant_id)`: issues the OOB-code request;
a non-200 status is only logged. `resetOk` is the HTTP outcome. -/
def send_password_reset (email tenantId : String) (resetOk : Bool) : List UEvent :=
  [UEvent.resetRequested email tenantId] ++
    (if resetOk then [] else [UEvent.failResetLogged email])

/-- `add_user_and_send_reset(tenant_id)` once the email has been fetched:
attempt `create_user` with outcome `createOutcome` (a failure is caught and
logged as a warning), then unconditionally run `send_password_reset`. -/
def add_user_and_send_reset (tenantId email : String)
    (createOutcome : Except Err Unit) (resetOk : Bool) : List UEvent :=
  (match createOutcome with
   | Except.ok _ => [UEvent.userCreated email]
   | Except.error e => [UEvent.warnCreateFailed email e]) ++
  send_password_reset email tenantId resetOk

/-- C5: whatever the outcome of the principal-creation call — success,
"already exists", or any other failure — the worker still performs the
password-reset step, and that step is exactly the one performed in the
success case: the trace always ends with `send_password_reset`'s events and
always contains the reset request. -/
theorem create_failure_does_not_skip_reset (tenantId email : String)
    (createOutcome : Except Err Unit) (resetOk : Bool) :
    (∃ head, add_user_and_send_reset tenantId email createOutcome resetOk =
        head ++ send_password_reset email tenantId resetOk) ∧
    UEvent.resetRequested email tenantId ∈
      add_user_and_send_reset tenantId email createOutcome resetOk ∧
    (add_user_and_send_reset tenantId email createOutcome resetOk).drop 1 =
      (add_user_and_send_reset tenantId email (Except.ok ()) resetOk).drop 1 := by
  refine ⟨⟨_, rfl⟩, ?_, ?_⟩
  · cases createOutcome <;> simp [add_user_and_send_reset, send_password_reset]
  · cases createOutcome <;> rfl

/-! ## `process_tenant` (lines 171-177) and the thread pool (lines 201-205)

`process_tenant` wraps the whole per-item effect in `try/except` and returns
a `(tenant_id, status)` pair in both branches; `effectResult` is the
behaviour of `add_user_and_send_reset` for this tenant (`Except.error` when
it raises). `main` submits `process_tenant` once per tenant to a
`ThreadPoolExecutor` and collects the futures in completion order, which is
some permutation of the submission indices. -/

/-- `process_tenant(tenant)`: extract the tenant id, run the effect, and
return `(tenant_id, "ok")` on success or `(tenant_id, "error: <e>")` when
the effect raises; the exception is swallowed, never propagated. -/
def process_tenant (tenant : Tenant) (effectResult : Except Err Unit) : String × String :=
  let tid := tenant_id_of tenant
  match effectResult with
  | Except.ok _ => (tid, "ok")
  | Except.error e => (tid, "error: " ++ e)

/-- C10: for every tenant and every behaviour of the per-item effect —
success or any raised exception — `process_tenant` returns a
`(tenant_id, status)` pair: the first component is always the tenant id,
the status is "ok" exactly on success and an error description otherwise,
so collecting the results never re-raises a per-tenant failure. -/
theorem process_tenant_never_raises (tenant : Tenant) (effectResult : Except Err Unit) :
    (process_tenant tenant effectResult).1 = tenant_id_of tenant ∧
    (process_tenant tenant (Except.ok ())).2 = "ok" ∧
    (∀ e, (process_tenant tenant (Except.error e)).2 = "error: " ++ e) ∧
    ((process_tenant tenant effectResult).2 = "ok" ∨
      ∃ e, effectResult = Except.error e ∧
        (process_tenant tenant effectResult).2 = "error: " ++ e) := by
  refine ⟨?_, rfl, fun e => rfl, ?_⟩
  · cases effectResult <;> rfl
  · cases effectResult with
    | ok v => exact Or.inl rfl
    | error e => exact Or.inr ⟨e, rfl, rfl⟩

/-- The results the `as_completed` loop of `main` collects: the pool runs
`process_tenant` exactly once per submitted future; `order` is the
completion order of the futures, a permutation of the submission indices. -/
def executor_results (tenants : List Tenant) (effects : Nat → Except Err Unit)
    (order : List Nat) : List (String × String) :=
  order.map (fun i => process_tenant (tenants.getD i ⟨""⟩) (effects i))

/-- C2: under any completion order (any permutation of the submitted
indices), the collected results are exactly a permutation of one
`process_tenant` result per submitted tenant: every accepted item is
processed, and each submission index is taken exactly once — no item is
processed twice, none is dropped. -/
theorem each_item_processed_exactly_once (tenants : List Tenant)
    (effects : Nat → Except Err Unit) (order : List Nat)
    (hperm : order.Perm (List.range tenants.length)) :
    (executor_results tenants effects order).Perm
      ((List.range tenants.length).map
        (fun i => process_tenant (tenants.getD i ⟨""⟩) (effects i))) ∧
    (executor_results tenants effects order).length = tenants.length ∧
    ∀ i, i < tenants.length → order.count i = 1 := by
  refine ⟨hperm.map _, ?_, ?_⟩
  · simp [executor_results, hperm.length_eq]
  · intro i hi
    rw [hperm.count_eq]
    exact List.count_eq_one_of_mem (List.nodup_range _) (List.mem_range.mpr hi)

/-- Witness for C2: two tenants completing in reverse order: both results
are collected, each index exactly once. -/
theorem each_item_processed_exactly_once_witness :
    (executor_results [⟨"projects/p/tenants/a"⟩, ⟨"projects/p/tenants/b"⟩]
        (fun _ => Except.ok ()) [1, 0]).Perm
      ((List.range 2).map
        (fun i => process_tenant
          ([⟨"projects/p/tenants/a"⟩, ⟨"projects/p/tenants/b"⟩].getD i ⟨""⟩)
          ((fun _ => Except.ok ()) i))) ∧
    (executor_results [⟨"projects/p/tenants/a"⟩, ⟨"projects/p/tenants/b"⟩]
        (fun _ => Except.ok ()) [1, 0]).length = 2 ∧
    (∀ i, i < 2 → List.count i [1, 0] = 1) := by
  have h := each_item_processed_exactly_once
    [⟨"projects/p/tenants/a"⟩, ⟨"projects/p/tenants/b"⟩]
    (fun _ => Except.ok ()) [1, 0] (by decide)
  exact ⟨h.1, h.2.1, fun i hi => h.2.2 i hi⟩

/-! ## `main` (lines 183-210) as an event trace

`main` is straight-line: list tenants, prompt for the target, create the
deficit (aborting if a creation raises), re-list, run the thread pool once
over the final tenant list, print each result and the done banner, and
return. There is no outer loop, no round counter and no kill switch: the
model has no input that could represent one. -/

/-- Observable events of one `main` run. -/
inductive Event where
  | existingCount (n : Nat)
  | totalCount (n : Nat)
  | startBanner
  | taskResult (tenantId : String) (status : String)
  | doneBanner
deriving DecidableEq, Repr

/-- Does the event report a completed per-tenant task? -/
def Event.isTaskResult : Event → Bool
  | Event.taskResult _ _ => true
  | _ => false

/-- Is the event the start-of-processing banner? -/
def Event.isStartBanner : Event → Bool
  | Event.startBanner => true
  | _ => false

/-- `main()`: the trace of events it prints and the exception it ends with,
if any. Inputs: the listing server `s`, the target count, the per-call
creation outcomes `resp`, the per-tenant effect behaviours `effects`, and
the thread pool's completion order `order`. -/
def mainRun (s : TenantServer) (target : Int) (resp : Nat → Except Err Tenant)
    (effects : Nat → Except Err Unit) (order : List Nat) : List Event × Option Err :=
  let tenants := get_project_tenants s
  let r := ensure_partition_count tenants target resp
  match r.2.2 with
  | some e => ([Event.existingCount tenants.length], some e)
  | none =>
    let results := executor_results r.2.1 effects order
    ([Event.existingCount tenants.length, Event.totalCount r.2.1.length,
        Event.startBanner]
      ++ results.map (fun p => Event.taskResult p.1 p.2)
      ++ [Event.doneBanner], none)

/-- C9 counterexample: with one existing tenant and target 1, `main`
terminates of its own accord after a single pass — the trace is finite,
contains exactly one round and ends with the done banner — although no kill
switch was ever used (the program has none). -/
theorem process_terminates_counterexample :
    mainRun ⟨[[⟨"projects/p/tenants/a"⟩]]⟩ 1 (fun _ => Except.error "unused")
        (fun _ => Except.ok ()) [0] =
      ([Event.existingCount 1, Event.totalCount 1, Event.startBanner,
        Event.taskResult "a" "ok", Event.doneBanner], none) ∧
    (mainRun ⟨[[⟨"projects/p/tenants/a"⟩]]⟩ 1 (fun _ => Except.error "unused")
        (fun _ => Except.ok ()) [0]).1.getLast? = some Event.doneBanner := by
  constructor <;> rfl

lemma mainRun_fst_of_noerr (s : TenantServer) (target : Int)
    (resp : Nat → Except Err Tenant) (effects : Nat → Except Err Unit)
    (order : List Nat)
    (hnoerr : (ensure_partition_count (get_project_tenants s) target resp).2.2 = none) :
    (mainRun s target resp effects order).1 =
      [Event.existingCount (get_project_tenants s).length,
        Event.totalCount (ensure_partition_count (get_project_tenants s) target resp).2.1.length,
        Event.startBanner]
      ++ (executor_results (ensure_partition_count (get_project_tenants s) target resp).2.1
          effects order).map (fun p => Event.taskResult p.1 p.2)
      ++ [Event.doneBanner] := by
  simp only [mainRun]
  rw [hnoerr]

lemma mainRun_snd_of_noerr (s : TenantServer) (target : Int)
    (resp : Nat → Except Err Tenant) (effects : Nat → Except Err Unit)
    (order : List Nat)
    (hnoerr : (ensure_partition_count (get_project_tenants s) target resp).2.2 = none) :
    (mainRun s target resp effects order).2 = none := by
  simp only [mainRun]
  rw [hnoerr]

lemma filter_taskResult_of_map (results : List (String × String)) :
    (results.map (fun p => Event.taskResult p.1 p.2)).filter Event.isTaskResult =
      results.map (fun p => Event.taskResult p.1 p.2) := by
  rw [List.filter_eq_self]
  intro e he
  obtain ⟨p, _, rfl⟩ := List.mem_map.mp he
  rfl

lemma filter_startBanner_of_map (results : List (String × String)) :
    (results.map (fun p => Event.taskResult p.1 p.2)).filter Event.isStartBanner = [] := by
  rw [List.filter_eq_nil_iff]
  intro e he
  obtain ⟨p, _, rfl⟩ := List.mem_map.mp he
  simp [Event.isStartBanner]

/-- C9 amended: `main` performs exactly one pass and then terminates on its
own. When no creation call fails, it raises nothing, its finite trace ends
with the done banner, contains exactly one start-of-processing banner (one
round, never a second), and reports exactly one task result per tenant of
the final directory. There is no round loop and no kill switch. -/
theorem main_is_single_pass (s : TenantServer) (target : Int)
    (resp : Nat → Except Err Tenant) (effects : Nat → Except Err Unit)
    (order : List Nat)
    (hok : ∀ j, ∃ t, resp j = Except.ok t)
    (hperm : order.Perm (List.range
      (ensure_partition_count (get_project_tenants s) target resp).2.1.length)) :
    (mainRun s target resp effects order).2 = none ∧
    (mainRun s target resp effects order).1.getLast? = some Event.doneBanner ∧
    ((mainRun s target resp effects order).1.filter Event.isStartBanner).length = 1 ∧
    ((mainRun s target resp effects order).1.filter Event.isTaskResult).length =
      (ensure_partition_count (get_project_tenants s) target resp).2.1.length := by
  have hnoerr : (ensure_partition_count (get_project_tenants s) target resp).2.2 = none :=
    (creationLoop_all_ok resp hok _ 0 _).2.2
  have horder : order.length =
      (ensure_partition_count (get_project_tenants s) target resp).2.1.length := by
    rw [hperm.length_eq, List.length_range]
  refine ⟨mainRun_snd_of_noerr s target resp effects order hnoerr, ?_, ?_, ?_⟩
  · rw [mainRun_fst_of_noerr s target resp effects order hnoerr,
      List.getLast?_concat]
  · rw [mainRun_fst_of_noerr s target resp effects order hnoerr,
      List.filter_append, List.filter_append,
      filter_startBanner_of_map]
    rfl
  · rw [mainRun_fst_of_noerr s target resp effects order hnoerr,
      List.filter_append, List.filter_append,
      filter_taskResult_of_map]
    simp [executor_results, horder,
      show ∀ x y, List.filter Event.isTaskResult
        [Event.existingCount x, Event.totalCount y, Event.startBanner] = []
        from fun x y => rfl,
      show List.filter Event.isTaskResult [Event.doneBanner] = [] from rfl]

/-- Witness for C9 amended: an empty directory, target 1, one successful
creation: `main` ends with the done banner after one round reporting one
task result. -/
theorem main_is_single_pass_witness :
    (mainRun ⟨[[]]⟩ 1 (fun _ => Except.ok ⟨"projects/p/tenants/n0"⟩)
        (fun _ => Except.ok ()) [0]).2 = none ∧
    (mainRun ⟨[[]]⟩ 1 (fun _ => Except.ok ⟨"projects/p/tenants/n0"⟩)
        (fun _ => Except.ok ()) [0]).1.getLast? = some Event.doneBanner ∧
    ((mainRun ⟨[[]]⟩ 1 (fun _ => Except.ok ⟨"projects/p/tenants/n0"⟩)
        (fun _ => Except.ok ()) [0]).1.filter Event.isStartBanner).length = 1 ∧
    ((mainRun ⟨[[]]⟩ 1 (fun _ => Except.ok ⟨"projects/p/tenants/n0"⟩)
        (fun _ => Except.ok ()) [0]).1.filter Event.isTaskResult).length =
      (ensure_partition_count (get_project_tenants ⟨[[]]⟩) 1
        (fun _ => Except.ok ⟨"projects/p/tenants/n0"⟩)).2.1.length :=
  main_is_single_pass ⟨[[]]⟩ 1 (fun _ => Except.ok ⟨"projects/p/tenants/n0"⟩)
    (fun _ => Except.ok ()) [0] (fun _ => ⟨_, rfl⟩) (by decide)

end Firebase
